import Mathlib

/-!
Shallow embedding of the survey-analysis pipeline in analyze_survey.py.

The script is a linear batch transform over a tabular dataset:
load, strip two metadata rows, subset columns, aggregate
(grouped means for Task 1, a row-normalized percentage cross-tabulation
for Task 2), reorder the Likert columns, and write a text summary.

Cells are modelled as Option String (None is the missing marker NaN).
The numeric coercion performed by the data library on rank cells is an
abstract parameter nu : String -> Option Rat, since its parsing rules are
library internals; both the code-side pipeline and the spec-side
description use the same coercion, so all theorems quantify over it.
Chart rendering (the two image artifacts) is outside the file-state
model; only the text summary artifact is modelled.
-/

namespace AnalyzeSurvey

/-- A table cell: a present string value, or the missing marker. -/
abbrev Cell := Option String

/-- Metadata stripper, embedding df.iloc[2:].reset_index(drop=True):
the first two data rows are dropped positionally, whatever they hold. -/
def stripMetadata {α : Type} (rows : List α) : List α :=
  rows.drop 2

/-- The canonical five-point Likert ordering, embedding likert_order. -/
def likert_order : List String :=
  ["Definitely yes", "Probably yes", "Might or might not", "Probably not",
   "Definitely not"]

/-- Embedding of existing_order: the known scale labels that occur among
the cross-tabulation columns, kept in their canonical order. -/
def existing_order (cols : List String) : List String :=
  likert_order.filter (fun v => decide (v ∈ cols))

/-- Embedding of others: columns not captured by existing_order, in their
table-default order. -/
def other_cols (cols : List String) : List String :=
  cols.filter (fun c => !decide (c ∈ existing_order cols))

/-- Embedding of final_order: reordered column list used to index the
cross-tabulation. -/
def final_order (cols : List String) : List String :=
  existing_order cols ++ other_cols cols

/-- A Task 1 input row: the employment cell (column Q47, renamed
Work in CPA Firm) and the six ranking cells Q24_1 .. Q24_6. -/
structure Task1Row where
  employment : Cell
  ranks : Fin 6 → Cell

/-- A Task 1 row after the numeric-coercion step on the six rank columns. -/
structure Task1Coerced where
  employment : Cell
  ranks : Fin 6 → Option ℚ

/-- Embedding of pd.to_numeric(col, errors=coerce) applied to the six
ranking columns: a missing cell stays missing, a present cell goes
through the numeric parser nu, unparsable values becoming missing. -/
def toNumericStep (nu : String → Option ℚ) (rows : List Task1Row) :
    List Task1Coerced :=
  rows.map (fun r => ⟨r.employment, fun i => (r.ranks i).bind nu⟩)

/-- Embedding of task1_df.dropna(subset=[Work in CPA Firm] + ranking_cols):
a row survives only when the employment cell and all six coerced rank
cells are present. -/
def dropnaStep (rows : List Task1Coerced) : List Task1Coerced :=
  rows.filter
    (fun r => r.employment.isSome && decide (∀ i : Fin 6, (r.ranks i).isSome))

/-- Mean of a list of rationals, None on the empty list (as a grouped mean
only exists for groups that occur). -/
def meanOpt (xs : List ℚ) : Option ℚ :=
  if xs.isEmpty then none else some (xs.sum / xs.length)

/-- Embedding of task1_df.groupby(Work in CPA Firm)[ranking_cols].mean()
at group g and ranking field i: the mean of field i over the cleaned
rows whose employment cell equals g. -/
def task1Mean (nu : String → Option ℚ) (rows : List Task1Row) (g : String)
    (i : Fin 6) : Option ℚ :=
  meanOpt
    ((((toNumericStep nu rows).filter
          (fun r => r.employment.isSome &&
            decide (∀ j : Fin 6, (r.ranks j).isSome))).filter
        (fun r => r.employment == some g)).map (fun r => (r.ranks i).getD 0))

/-- The group keys of the Task 1 mean table: the distinct employment
values among the cleaned rows. -/
def task1Groups (nu : String → Option ℚ) (rows : List Task1Row) :
    List String :=
  ((dropnaStep (toNumericStep nu rows)).filterMap (fun r => r.employment)).dedup

/-- Spec-side description of the Task 1 mean: the arithmetic mean of the
coerced values of field i over exactly the input rows whose employment
cell equals g and whose seven relevant cells all coerce to a present
value. Written from the spec sentence, to be compared with task1Mean. -/
def task1MeanSpec (nu : String → Option ℚ) (rows : List Task1Row)
    (g : String) (i : Fin 6) : Option ℚ :=
  meanOpt
    ((rows.filter
        (fun r => decide (r.employment = some g) &&
          decide (∀ j : Fin 6, ((r.ranks j).bind nu).isSome))).map
      (fun r => ((r.ranks i).bind nu).getD 0))

/-- A Task 2 input row: the program-type cell (column Q58, renamed
Program Type) and the earnings-belief cell (column Q44, renamed
Lifetime Earnings Belief). -/
structure Task2Row where
  program : Cell
  belief : Cell

/-- Embedding of the isin([MAcc, MBA]) restriction: a missing program
cell never matches. -/
def isinStep (rows : List Task2Row) : List Task2Row :=
  rows.filter (fun r => r.program == some "MAcc" || r.program == some "MBA")

/-- Embedding of task2_df.dropna(): both cells must be present. -/
def dropna2Step (rows : List Task2Row) : List Task2Row :=
  rows.filter (fun r => r.program.isSome && r.belief.isSome)

/-- The rows that survive the Task 2 filtering, with both cells unwrapped
to plain strings. -/
def task2Kept (rows : List Task2Row) : List (String × String) :=
  (dropna2Step (isinStep rows)).filterMap
    (fun r => r.program.bind (fun p => r.belief.map (fun b => (p, b))))

/-- Number of kept respondents of program type p (a crosstab row total
before normalization). -/
def countP (kept : List (String × String)) (p : String) : ℕ :=
  (kept.filter (fun r => r.1 == p)).length

/-- Number of kept respondents of program type p giving belief b (a
crosstab cell count). -/
def countPB (kept : List (String × String)) (p b : String) : ℕ :=
  (kept.filter (fun r => r.1 == p && r.2 == b)).length

/-- The crosstab index: distinct program types among the kept rows. -/
def crosstabRows (kept : List (String × String)) : List String :=
  (kept.map (fun r => r.1)).dedup

/-- The crosstab columns: distinct belief values among the kept rows. -/
def crosstabCols (kept : List (String × String)) : List String :=
  (kept.map (fun r => r.2)).dedup

/-- The row total that normalize=index divides by: the sum of the row's
cell counts across all crosstab columns. -/
def rowTotal (kept : List (String × String)) (p : String) : ℕ :=
  ((crosstabCols kept).map (fun b => countPB kept p b)).sum

/-- Embedding of pd.crosstab(..., normalize=index) * 100 at cell (p, b). -/
def crosstabCell (kept : List (String × String)) (p b : String) : ℚ :=
  100 * ((countPB kept p b : ℚ) / (rowTotal kept p : ℚ))

/-- Concrete Task 2 input used to witness the crosstab theorem. -/
def task2DemoRows : List Task2Row :=
  [⟨some "MAcc", some "Probably yes"⟩, ⟨some "MAcc", some "Definitely yes"⟩,
   ⟨some "MBA", some "Definitely yes"⟩, ⟨some "PhD", some "Probably not"⟩,
   ⟨some "MBA", none⟩]

/-- Concrete Task 2 input used to witness the restriction theorem. -/
def task2MixedRows : List Task2Row :=
  [⟨some "MAcc", some "Definitely yes"⟩, ⟨some "MBA", some "Probably not"⟩,
   ⟨some "PhD", some "Definitely yes"⟩, ⟨none, some "Probably yes"⟩,
   ⟨some "MAcc", none⟩]

/-- File store: maps a file name to its content when the file exists. -/
abbrev FS := String → Option String

/-- Writing a file replaces its content wholesale. -/
def writeFile (fs : FS) (name content : String) : FS :=
  fun n => if n = name then some content else fs n

/-- An open write-mode handle: the content accumulated so far. -/
structure OpenFile where
  content : String

/-- Opening in write mode truncates: the handle starts empty whatever the
file held before. -/
def openForWrite : OpenFile := ⟨""⟩

/-- One f.write call appends to the open handle. -/
def fwrite (f : OpenFile) (s : String) : OpenFile := ⟨f.content ++ s⟩

/-- The Task 1 section header written by the summary block. -/
def task1Header : String :=
  "Task 1: Mean Ranks by Employment Status (Lower = Higher Priority)\n"

/-- The Task 2 section header written by the summary block. -/
def task2Header : String :=
  "Task 2: Percentage Belief in Higher Lifetime Earnings by Program Type\n"

/-- Name of the text summary artifact. -/
def summaryFileName : String := "results_summary.csv"

/-- Embedding of the summary block: open the file in write mode, write
the Task 1 header, the Task 1 table text, a separating newline (the
table text itself ends in a newline, so this yields a blank line), the
Task 2 header, and the Task 2 table text, then close. -/
def summaryWriterRun (fs : FS) (t1csv t2csv : String) : FS :=
  let f0 := openForWrite
  let f1 := fwrite f0 task1Header
  let f2 := fwrite f1 t1csv
  let f3 := fwrite f2 "\n"
  let f4 := fwrite f3 task2Header
  let f5 := fwrite f4 t2csv
  writeFile fs summaryFileName f5.content

/-- Spec-side description of the summary content: the five pieces
concatenated in order. -/
def summaryContent (t1csv t2csv : String) : String :=
  task1Header ++ t1csv ++ "\n" ++ task2Header ++ t2csv

/-- A raw data row of the survey export, restricted to the nine cells the
script reads: the employment cell Q47, the six ranking cells Q24_1 to
Q24_6, the program-type cell Q58 and the earnings-belief cell Q44. -/
structure RawRow where
  q47 : Cell
  q24 : Fin 6 → Cell
  q58 : Cell
  q44 : Cell

/-- Projection of a raw row onto the Task 1 columns. -/
def toTask1Row (r : RawRow) : Task1Row := ⟨r.q47, r.q24⟩

/-- Projection of a raw row onto the Task 2 columns. -/
def toTask2Row (r : RawRow) : Task2Row := ⟨r.q58, r.q44⟩

/-- The hard-coded input file name the script reads. -/
def inputFileName : String :=
  "Alternative CPA Pathways Survey_December 31, 2025_09.45.csv"

/-- The Task 1 mean table: one row per group holding the six means. -/
def task1MeansTable (nu : String → Option ℚ) (rows : List Task1Row) :
    List (String × (Fin 6 → Option ℚ)) :=
  (task1Groups nu rows).map (fun g => (g, fun i => task1Mean nu rows g i))

/-- The Task 2 percentage table: one row per program type, cells indexed
by the reordered columns. -/
def crosstabTable (rows : List Task2Row) : List (String × List ℚ) :=
  (crosstabRows (task2Kept rows)).map (fun p =>
    (p, (final_order (crosstabCols (task2Kept rows))).map
      (fun b => crosstabCell (task2Kept rows) p b)))

/-- Outcome of one process run: exit code, console lines, file store. -/
structure RunResult where
  exitCode : ℕ
  stdout : List String
  fs : FS

/-- Embedding of main: read the input table (exit 1 with a diagnostic
when the file is absent), strip the metadata rows, aggregate both tasks
and write the summary. The table serializations render1 and render2 are
abstract parameters (library internals); chart rendering is outside the
file-state model. -/
def runMain (nu : String → Option ℚ)
    (render1 : List (String × (Fin 6 → Option ℚ)) → String)
    (render2 : List (String × List ℚ) → String)
    (input : String → Option (List RawRow)) (fs : FS) : RunResult :=
  match input inputFileName with
  | none => ⟨1, ["Error: CSV file not found."], fs⟩
  | some raw =>
      let clean := stripMetadata raw
      let t1csv := render1 (task1MeansTable nu (clean.map toTask1Row))
      let t2csv := render2 (crosstabTable (clean.map toTask2Row))
      ⟨0,
        ["Starting Task 1...",
         "Task 1 completed. Saved task1_priorities.png",
         "Starting Task 2...",
         "Task 2 completed. Saved task2_earnings.png",
         "Generating summary...",
         "Summary saved to results_summary.csv"],
        summaryWriterRun fs t1csv t2csv⟩

/-- The employment column identifier the check tests for. -/
def col_employment : String := "Q47"

/-- All column identifiers the script reads from the cleaned table. -/
def expectedColumns : List String :=
  ["Q47", "Q24_1", "Q24_2", "Q24_3", "Q24_4", "Q24_5", "Q24_6", "Q58", "Q44"]

/-- Start of the console warning the check prints (the source message
continues with the quoted employment question text). -/
def employmentWarning : String :=
  "Warning: Q47 not found. Searching for the employment question text."

/-- The column names the Task 1 subset selects, warning or not. -/
def task1SelectedColumns : List String :=
  ["Q47", "Q24_1", "Q24_2", "Q24_3", "Q24_4", "Q24_5", "Q24_6"]

/-- Embedding of the column-existence check before the Task 1 subset:
only the employment column is tested, the branch only prints and then
passes, and the subsequent subset selects the same original column names
either way. -/
def columnCheckStep (cols : List String) : List String × List String :=
  (if col_employment ∈ cols then [] else [employmentWarning],
    task1SelectedColumns)

lemma mem_existing_order {cols : List String} {c : String} :
    c ∈ existing_order cols ↔ c ∈ likert_order ∧ c ∈ cols := by
  simp [existing_order]

lemma other_cols_eq_filter (cols : List String) :
    other_cols cols = cols.filter (fun c => !decide (c ∈ likert_order)) := by
  unfold other_cols
  apply List.filter_congr
  intro c hc
  by_cases h : c ∈ likert_order
  · simp [mem_existing_order, h, hc]
  · simp [mem_existing_order, h]

lemma task1_lists_eq (nu : String → Option ℚ) (g : String) (i : Fin 6) :
    ∀ rows : List Task1Row,
      (((toNumericStep nu rows).filter
            (fun r => r.employment.isSome &&
              decide (∀ j : Fin 6, (r.ranks j).isSome))).filter
          (fun r => r.employment == some g)).map (fun r => (r.ranks i).getD 0)
        = (rows.filter
            (fun r => decide (r.employment = some g) &&
              decide (∀ j : Fin 6, ((r.ranks j).bind nu).isSome))).map
            (fun r => ((r.ranks i).bind nu).getD 0) := by
  intro rows
  unfold toNumericStep
  rw [List.filter_filter, List.filter_map, List.map_map]
  congr 1
  apply List.filter_congr
  intro r _
  simp only [Function.comp]
  by_cases hg : r.employment = some g
  · simp [hg]
  · simp [hg]

lemma sum_map_ite_one_zero_of_not_mem (a : String) :
    ∀ ks : List String, a ∉ ks →
      (ks.map (fun b => if a = b then (1 : ℕ) else 0)).sum = 0 := by
  intro ks
  induction ks with
  | nil => intro _; rfl
  | cons k ks ih =>
    intro h
    have hk : ¬a = k := fun hak => h (hak ▸ List.mem_cons_self k ks)
    have hks : a ∉ ks := fun hm => h (List.mem_cons_of_mem k hm)
    simp [hk, ih hks]

lemma sum_map_ite_one_zero_of_mem (a : String) :
    ∀ ks : List String, ks.Nodup → a ∈ ks →
      (ks.map (fun b => if a = b then (1 : ℕ) else 0)).sum = 1 := by
  intro ks
  induction ks with
  | nil => intro _ h; simp at h
  | cons k ks ih =>
    intro hnd hmem
    by_cases hk : a = k
    · subst hk
      have hnotin : a ∉ ks := (List.nodup_cons.mp hnd).1
      simp [sum_map_ite_one_zero_of_not_mem a ks hnotin]
    · have hmem' : a ∈ ks := by
        rcases List.mem_cons.mp hmem with h | h
        · exact absurd h hk
        · exact h
      simp [hk, ih (List.nodup_cons.mp hnd).2 hmem']

lemma nat_sum_map_add {α : Type} (f g : α → ℕ) :
    ∀ l : List α, (l.map (fun x => f x + g x)).sum
      = (l.map f).sum + (l.map g).sum := by
  intro l
  induction l with
  | nil => rfl
  | cons x l ih => simp [ih]; omega

/-- For a duplicate-free column list covering every kept belief of
program type p, the cell counts of row p sum to the row's respondent
count: the beliefs partition the row. -/
lemma sum_countPB_eq_countP (p : String) :
    ∀ (l : List (String × String)) (ks : List String), ks.Nodup →
      (∀ r ∈ l, r.1 = p → r.2 ∈ ks) →
      (ks.map (fun b => (l.filter (fun r => r.1 == p && r.2 == b)).length)).sum
        = (l.filter (fun r => r.1 == p)).length := by
  intro l
  induction l with
  | nil => intro ks _ _; simp
  | cons x l ih =>
    intro ks hnd hcov
    have hcov' : ∀ r ∈ l, r.1 = p → r.2 ∈ ks :=
      fun r hr => hcov r (List.mem_cons_of_mem x hr)
    by_cases hp : x.1 = p
    · have hx2 : x.2 ∈ ks := hcov x (List.mem_cons_self x l) hp
      have hmap : (ks.map
            (fun b => ((x :: l).filter (fun r => r.1 == p && r.2 == b)).length))
          = ks.map (fun b => (if x.2 = b then 1 else 0)
              + (l.filter (fun r => r.1 == p && r.2 == b)).length) := by
        apply List.map_congr_left
        intro b _
        by_cases hb : x.2 = b
        · simp [List.filter_cons, hp, hb]
          omega
        · simp [List.filter_cons, hp, hb]
      rw [hmap, nat_sum_map_add, sum_map_ite_one_zero_of_mem x.2 ks hnd hx2,
        ih ks hnd hcov']
      simp [List.filter_cons, hp]
      omega
    · have hmap : (ks.map
            (fun b => ((x :: l).filter (fun r => r.1 == p && r.2 == b)).length))
          = ks.map (fun b => (l.filter (fun r => r.1 == p && r.2 == b)).length) := by
        apply List.map_congr_left
        intro b _
        simp [List.filter_cons, hp]
      rw [hmap, ih ks hnd hcov']
      simp [List.filter_cons, hp]

/-- The normalize=index divisor coincides with the count of kept
respondents of the program type. -/
lemma rowTotal_eq_countP (kept : List (String × String)) (p : String) :
    rowTotal kept p = countP kept p := by
  unfold rowTotal countP crosstabCols countPB
  apply sum_countPB_eq_countP
  · exact List.nodup_dedup _
  · intro r hr _
    exact List.mem_dedup.mpr (List.mem_map_of_mem (fun r => r.2) hr)

lemma countP_pos_of_mem_crosstabRows {kept : List (String × String)}
    {p : String} (hp : p ∈ crosstabRows kept) : 0 < countP kept p := by
  unfold crosstabRows at hp
  rcases List.mem_map.mp (List.mem_dedup.mp hp) with ⟨r, hr, hrp⟩
  unfold countP
  have : r ∈ kept.filter (fun r => r.1 == p) := by
    rw [List.mem_filter]
    exact ⟨hr, by simp [hrp]⟩
  exact List.length_pos.mpr (fun hnil => by simp [hnil] at this)

lemma task2Kept_eq (rows : List Task2Row) :
    task2Kept rows = rows.filterMap (fun r =>
      match r.program, r.belief with
      | some p, some b =>
          if p = "MAcc" ∨ p = "MBA" then some (p, b) else none
      | _, _ => none) := by
  induction rows with
  | nil => rfl
  | cons r rows ih =>
    unfold task2Kept dropna2Step isinStep at *
    cases hp : r.program with
    | none => simpa [List.filter_cons, List.filterMap_cons, hp] using ih
    | some p =>
      cases hb : r.belief with
      | none =>
        by_cases hm : p = "MAcc" ∨ p = "MBA"
        · rcases hm with hm | hm <;>
            simpa [List.filter_cons, List.filterMap_cons, hp, hb, hm] using ih
        · push_neg at hm
          simpa [List.filter_cons, List.filterMap_cons, hp, hb, hm.1, hm.2]
            using ih
      | some b =>
        by_cases hm : p = "MAcc" ∨ p = "MBA"
        · rcases hm with hm | hm <;>
            simpa [List.filter_cons, List.filterMap_cons, hp, hb, hm] using ih
        · push_neg at hm
          simpa [List.filter_cons, List.filterMap_cons, hp, hb, hm, hm.1, hm.2]
            using ih

lemma task2Kept_program_mem {rows : List Task2Row} :
    ∀ pb ∈ task2Kept rows, pb.1 = "MAcc" ∨ pb.1 = "MBA" := by
  intro pb hpb
  rw [task2Kept_eq] at hpb
  rcases List.mem_filterMap.mp hpb with ⟨r, _, hr⟩
  cases hp : r.program with
  | none => rw [hp] at hr; simp at hr
  | some p =>
    cases hb : r.belief with
    | none => rw [hp, hb] at hr; simp at hr
    | some b =>
      rw [hp, hb] at hr
      by_cases hm : p = "MAcc" ∨ p = "MBA"
      · simp only [hm, if_pos, Option.some_inj] at hr
        rcases hm with hm | hm
        · left; rw [← hr]; exact hm
        · right; rw [← hr]; exact hm
      · simp [hm] at hr

lemma final_order_filter_out (cols : List String) :
    (final_order cols).filter (fun c => !decide (c ∈ likert_order))
      = cols.filter (fun c => !decide (c ∈ likert_order)) := by
  unfold final_order
  rw [List.filter_append, other_cols_eq_filter, List.filter_filter]
  have h1 : (existing_order cols).filter
      (fun c => !decide (c ∈ likert_order)) = [] := by
    rw [List.filter_eq_nil_iff]
    intro c hc
    simp [mem_existing_order.mp hc |>.1]
  rw [h1]
  simp

lemma final_order_nodup {cols : List String} (h : cols.Nodup) :
    (final_order cols).Nodup := by
  unfold final_order
  rw [List.nodup_append]
  refine ⟨?_, ?_, ?_⟩
  · exact List.Nodup.filter _ (by decide)
  · exact List.Nodup.filter _ h
  · intro a ha hb
    have := (List.mem_filter.mp hb).2
    simp only [mem_existing_order] at *
    simp [ha] at this

lemma mem_final_order {cols : List String} {a : String} :
    a ∈ final_order cols ↔ a ∈ cols := by
  unfold final_order other_cols
  rw [List.mem_append]
  constructor
  · intro h
    rcases h with h | h
    · exact (mem_existing_order.mp h).2
    · exact (List.mem_filter.mp h).1
  · intro h
    by_cases hl : a ∈ likert_order
    · exact Or.inl (mem_existing_order.mpr ⟨hl, h⟩)
    · refine Or.inr (List.mem_filter.mpr ⟨h, ?_⟩)
      simp [mem_existing_order, hl]

/-- C1: each entry of the Task 1 mean table equals the arithmetic mean of
the field's coerced numeric values over exactly the input rows in which
the employment cell and all six coerced ranking cells are present and the
employment cell equals the group value: rows with any of the seven values
missing are excluded entirely. -/
theorem task1Mean_spec (nu : String → Option ℚ) (rows : List Task1Row)
    (g : String) (i : Fin 6) :
    task1Mean nu rows g i = task1MeanSpec nu rows g i := by
  unfold task1Mean task1MeanSpec
  rw [task1_lists_eq]

/-- C2: every cell of the Task 2 percentage table equals 100 times the
count of that belief for that program type divided by the program type's
respondent total, and each program-type row sums to exactly 100 over
rational arithmetic. -/
theorem task2_crosstab_spec (rows : List Task2Row) (p : String)
    (hp : p ∈ crosstabRows (task2Kept rows)) :
    (∀ b : String,
        crosstabCell (task2Kept rows) p b =
          100 * (countPB (task2Kept rows) p b : ℚ)
            / (countP (task2Kept rows) p : ℚ)) ∧
      ((crosstabCols (task2Kept rows)).map
          (fun b => crosstabCell (task2Kept rows) p b)).sum = 100 := by
  have hpos := countP_pos_of_mem_crosstabRows hp
  have hTc := rowTotal_eq_countP (task2Kept rows) p
  have hne : ((rowTotal (task2Kept rows) p : ℕ) : ℚ) ≠ 0 := by
    rw [hTc]
    exact_mod_cast Nat.pos_iff_ne_zero.mp hpos
  constructor
  · intro b
    unfold crosstabCell
    rw [hTc]
    ring
  · have hcell : (fun b => crosstabCell (task2Kept rows) p b)
        = fun b => (100 / (rowTotal (task2Kept rows) p : ℚ))
            * (countPB (task2Kept rows) p b : ℚ) := by
      funext b
      unfold crosstabCell
      ring
    rw [hcell, List.sum_map_mul_left]
    have hsum : ((crosstabCols (task2Kept rows)).map
          (fun b => (countPB (task2Kept rows) p b : ℚ))).sum
        = ((rowTotal (task2Kept rows) p : ℕ) : ℚ) := by
      unfold rowTotal
      rw [Nat.cast_list_sum, List.map_map]
      rfl
    rw [hsum]
    field_simp

/-- Witness for C2 at a concrete input. -/
theorem task2_crosstab_spec_witness :
    "MAcc" ∈ crosstabRows (task2Kept task2DemoRows) ∧
      ((crosstabCols (task2Kept task2DemoRows)).map
          (fun b => crosstabCell (task2Kept task2DemoRows) "MAcc" b)).sum
        = 100 :=
  ⟨by decide, (task2_crosstab_spec task2DemoRows "MAcc" (by decide)).2⟩

/-- C5: the Task 2 kept rows are exactly the input rows whose program
cell is MAcc or MBA and whose two cells are both present (all other rows
are excluded entirely), and when both program types occur among the kept
rows the percentage table has exactly two rows. -/
theorem task2_restriction_spec (rows : List Task2Row) :
    (task2Kept rows = rows.filterMap (fun r =>
        match r.program, r.belief with
        | some p, some b =>
            if p = "MAcc" ∨ p = "MBA" then some (p, b) else none
        | _, _ => none)) ∧
      (∀ pb ∈ task2Kept rows, pb.1 = "MAcc" ∨ pb.1 = "MBA") ∧
      ("MAcc" ∈ (task2Kept rows).map (fun r => r.1) →
        "MBA" ∈ (task2Kept rows).map (fun r => r.1) →
        (crosstabRows (task2Kept rows)).length = 2) := by
  refine ⟨task2Kept_eq rows, task2Kept_program_mem, ?_⟩
  intro hMAcc hMBA
  unfold crosstabRows
  rw [← List.card_toFinset]
  have hset : ((task2Kept rows).map (fun r => r.1)).toFinset
      = ({"MAcc", "MBA"} : Finset String) := by
    apply Finset.ext
    intro a
    rw [List.mem_toFinset]
    constructor
    · intro ha
      rcases List.mem_map.mp ha with ⟨pb, hpb, hpa⟩
      rcases task2Kept_program_mem pb hpb with h | h <;>
        simp [← hpa, h]
    · intro ha
      rcases Finset.mem_insert.mp ha with h | h
      · rw [h]; exact hMAcc
      · rw [Finset.mem_singleton.mp h]; exact hMBA
  rw [hset]
  decide

/-- Witness for C5 at a concrete input holding MAcc, MBA and PhD rows. -/
theorem task2_restriction_spec_witness :
    (∀ pb ∈ task2Kept task2MixedRows, pb.1 = "MAcc" ∨ pb.1 = "MBA") ∧
      (crosstabRows (task2Kept task2MixedRows)).length = 2 :=
  ⟨(task2_restriction_spec task2MixedRows).2.1,
    (task2_restriction_spec task2MixedRows).2.2 (by decide) (by decide)⟩

/-- C10: the Likert reordering is a permutation of the crosstab columns,
no column dropped or duplicated, and the out-of-scale columns keep their
crosstab relative order among themselves. -/
theorem final_order_perm (rows : List Task2Row) :
    (final_order (crosstabCols (task2Kept rows))).Perm
        (crosstabCols (task2Kept rows)) ∧
      (final_order (crosstabCols (task2Kept rows))).filter
          (fun c => !decide (c ∈ likert_order))
        = (crosstabCols (task2Kept rows)).filter
            (fun c => !decide (c ∈ likert_order)) := by
  have hnd : (crosstabCols (task2Kept rows)).Nodup := List.nodup_dedup _
  refine ⟨?_, final_order_filter_out _⟩
  rw [List.perm_ext_iff_of_nodup (final_order_nodup hnd) hnd]
  intro a
  exact mem_final_order

/-- C3: the metadata stripper removes exactly the first two rows: the
output has length N - 2 and its row at position 0 is the input's row at
position 2 (both sides empty alike when the input is shorter). -/
theorem stripMetadata_spec {α : Type} (rows : List α) :
    (stripMetadata rows).length = rows.length - 2 ∧
      (stripMetadata rows)[0]? = rows[2]? := by
  constructor
  · simp [stripMetadata]
  · simp [stripMetadata]

/-- C4: column reordering lists the known five-point labels that are
present first, in canonical order, then the out-of-scale labels in their
table-default order; on the concrete column set of the spec example the
result is the canonical sub-order. -/
theorem final_order_spec :
    (∀ cols : List String,
        final_order cols =
          likert_order.filter (fun v => decide (v ∈ cols)) ++
            cols.filter (fun c => !decide (c ∈ likert_order))) ∧
      final_order ["Probably not", "Definitely yes", "Might or might not"] =
        ["Definitely yes", "Might or might not", "Probably not"] := by
  constructor
  · intro cols
    unfold final_order
    rw [other_cols_eq_filter]
    rfl
  · rfl

/-- C6: one pass of the summary writer leaves the summary file holding
exactly the header, the Task 1 table text, the separator newline, the
second header and the Task 2 table text, in that order, and the result
does not depend on what the file held before: pure overwrite, no append
semantics. -/
theorem summaryWriter_spec (fs fs2 : FS) (t1csv t2csv : String) :
    (summaryWriterRun fs t1csv t2csv) summaryFileName
        = some (summaryContent t1csv t2csv) ∧
      (summaryWriterRun fs t1csv t2csv) summaryFileName
        = (summaryWriterRun fs2 t1csv t2csv) summaryFileName := by
  constructor
  · simp [summaryWriterRun, summaryContent, writeFile, fwrite, openForWrite,
      String.append_assoc]
  · simp [summaryWriterRun, writeFile]

/-- C7: when the input file is missing, the run prints the diagnostic and
exits with status 1 instead of propagating the failure; when the file is
present the run exits with status 0. -/
theorem missing_input_spec (nu : String → Option ℚ)
    (render1 : List (String × (Fin 6 → Option ℚ)) → String)
    (render2 : List (String × List ℚ) → String)
    (input : String → Option (List RawRow)) (fs : FS) :
    (input inputFileName = none →
        (runMain nu render1 render2 input fs).exitCode = 1 ∧
          "Error: CSV file not found."
            ∈ (runMain nu render1 render2 input fs).stdout) ∧
      (∀ raw, input inputFileName = some raw →
        (runMain nu render1 render2 input fs).exitCode = 0) := by
  constructor
  · intro h
    unfold runMain
    rw [h]
    exact ⟨rfl, by simp⟩
  · intro raw h
    unfold runMain
    rw [h]

/-- Witness for C7 at concrete runs with and without the input file. -/
theorem missing_input_spec_witness :
    ((runMain (fun _ => none) (fun _ => "") (fun _ => "")
          (fun _ => none) (fun _ => none)).exitCode = 1 ∧
        "Error: CSV file not found."
          ∈ (runMain (fun _ => none) (fun _ => "") (fun _ => "")
              (fun _ => none) (fun _ => none)).stdout) ∧
      (runMain (fun _ => none) (fun _ => "") (fun _ => "")
          (fun _ => some []) (fun _ => none)).exitCode = 0 :=
  ⟨(missing_input_spec (fun _ => none) (fun _ => "") (fun _ => "")
      (fun _ => none) (fun _ => none)).1 rfl,
    (missing_input_spec (fun _ => none) (fun _ => "") (fun _ => "")
      (fun _ => some []) (fun _ => none)).2 [] rfl⟩

/-- C8: the pipeline is deterministic in the input: running main a second
time over the file store left by the first run reproduces byte-identical
summary text. -/
theorem determinism_spec (nu : String → Option ℚ)
    (render1 : List (String × (Fin 6 → Option ℚ)) → String)
    (render2 : List (String × List ℚ) → String)
    (input : String → Option (List RawRow)) (fs : FS) :
    ((runMain nu render1 render2 input
          ((runMain nu render1 render2 input fs).fs)).fs) summaryFileName
      = ((runMain nu render1 render2 input fs).fs) summaryFileName := by
  unfold runMain
  cases h : input inputFileName with
  | none => rfl
  | some raw => simp [summaryWriterRun, writeFile]

/-- Counterexample to C9 as stated: the claim quantifies over every
expected column, but the check only tests Q47: with Q58 absent and Q47
present, no warning is printed. -/
theorem columnCheck_claim_false :
    ¬ ∀ cols : List String, ∀ c ∈ expectedColumns, c ∉ cols →
        (columnCheckStep cols).1 ≠ [] := by
  intro h
  exact h ["Q47", "Q24_1", "Q24_2", "Q24_3", "Q24_4", "Q24_5", "Q24_6", "Q44"]
    "Q58" (by decide) (by decide) (by decide)

/-- C9 amended: only the employment column Q47 is checked; when it is
absent a warning is printed to the console and processing continues, the
subsequent subset selecting the original column names unchanged (no
corrective fallback, no abort at that point); the absence of any other
expected column is not detected by this check. -/
theorem columnCheck_amended (cols : List String) :
    (col_employment ∉ cols →
        (columnCheckStep cols).1 = [employmentWarning]) ∧
      (col_employment ∈ cols → (columnCheckStep cols).1 = []) ∧
      (columnCheckStep cols).2 = task1SelectedColumns := by
  refine ⟨fun h => ?_, fun h => ?_, rfl⟩
  · simp [columnCheckStep, h]
  · simp [columnCheckStep, h]

/-- Witness for the amended C9 at concrete column sets. -/
theorem columnCheck_amended_witness :
    (columnCheckStep ["Q24_1"]).1 = [employmentWarning] ∧
      (columnCheckStep expectedColumns).1 = [] ∧
      (columnCheckStep ["Q24_1"]).2 = task1SelectedColumns :=
  ⟨(columnCheck_amended ["Q24_1"]).1 (by decide),
    (columnCheck_amended expectedColumns).2.1 (by decide),
    (columnCheck_amended ["Q24_1"]).2.2⟩

end AnalyzeSurvey
